import Mathlib

/-!
Verification of the client-side chat logic in `src/client/src/App.tsx`
(`ChatInterface`): the Composer (pending text and attachment list), the
Conversation Store (the `messages` list), and the Transport
(`sendMessageToServer`), together with the `handleSend` send cycle.

The embedding translates the TypeScript source into Lean:
JavaScript runtime values produced by `response.json()` become the `Json`
inductive; `undefined` is modelled by `Option.none`; object reference
identity (the sentinel comparison `msg !== LOADING_MESSAGE`) is modelled by
tagging every stored message object with an allocation identity; and the
React component's state together with its event handlers becomes an explicit
state type `AppState` with a step function `applyEvent` over the UI events
that can fire.
-/

namespace ChatApp

/-- JSON values as produced by `response.json()`.  Numbers are modelled as
integers (every number in this development is integral).  An object is its
list of key-value pairs in insertion order, which is the order `JSON.parse`
creates properties and, for non-integer-like keys, the order `Object.keys`
iterates them. -/
inductive Json where
  | null : Json
  | bool : Bool → Json
  | num : Int → Json
  | str : String → Json
  | arr : List Json → Json
  | obj : List (String × Json) → Json

/-- A JavaScript value of interest here: a JSON value, or `undefined`
(modelled by `none`). -/
abbrev JsVal := Option Json

/-- Lookup of an own property on a JS object by key (first binding wins;
objects built by `JSON.parse` have no duplicate keys). -/
def jsLookup (fields : List (String × Json)) (k : String) : JsVal :=
  (fields.find? (fun p => p.1 == k)).map Prod.snd

mutual

/-- String conversion applied by the JS `+` operator when one operand is a
string: `null` renders as "null", booleans and integers in decimal, arrays
join their elements with commas rendering `null` elements empty, and plain
objects render as "[object Object]". -/
def jsToString : Json → String
  | .null => "null"
  | .bool true => "true"
  | .bool false => "false"
  | .num n => toString n
  | .str s => s
  | .arr xs => jsArrToString xs
  | .obj _ => "[object Object]"

/-- Rendering of a JS array by `Array.prototype.toString`: elements joined
with commas, `null` elements rendered as the empty string. -/
def jsArrToString : List Json → String
  | [] => ""
  | [.null] => ""
  | [x] => jsToString x
  | .null :: xs => "," ++ jsArrToString xs
  | x :: xs => jsToString x ++ "," ++ jsArrToString xs

end

/-- String conversion of a JS value; `undefined` renders as "undefined". -/
def jsValToString : JsVal → String
  | none => "undefined"
  | some j => jsToString j

/-- JS property read `v.k` for an ordinary (non-special) property name such
as "messages" or "files": reading a property of `null` throws a TypeError
(`Except.error`), an object yields the bound value or `undefined`, and any
other primitive yields `undefined`. -/
def jsGetField : Json → String → Except Unit JsVal
  | .null, _ => .error ()
  | .obj fields, k => .ok (jsLookup fields k)
  | _, _ => .ok none

/-- Evaluation of `m[m.length - 1]` when `m` is a plain object: `m.length`
is looked up; `undefined - 1` is `NaN`, which as a property key is the
string "NaN"; a numeric length `n` gives the key `n - 1` in decimal; a
boolean coerces to 0 or 1.  (A string or array `length` property would
coerce through string-to-number conversion; it is modelled as the `NaN` key.
No claim involves an object-valued `messages`.) -/
def objIndexLast (fields : List (String × Json)) : JsVal :=
  match jsLookup fields "length" with
  | none => jsLookup fields "NaN"
  | some (.num n) => jsLookup fields (toString (n - 1))
  | some (.bool b) => jsLookup fields (toString ((if b then 1 else 0) - 1 : Int))
  | some .null => jsLookup fields "-1"
  | some (.str _) => jsLookup fields "NaN"
  | some (.arr _) => jsLookup fields "NaN"
  | some (.obj _) => jsLookup fields "NaN"

/-- Evaluation of `responseData.messages[responseData.messages.length - 1]`
(line 110 of App.tsx).  Reading `.length` on `undefined` (absent key) or
`null` throws; an array yields its last element, or `undefined` when empty;
a string yields its last character (or `undefined` when empty); numbers and
booleans have no `length`, so the index is `NaN` and the result `undefined`. -/
def lastMessage (responseData : Json) : Except Unit JsVal := do
  let m ← jsGetField responseData "messages"
  match m with
  | none => .error ()
  | some .null => .error ()
  | some (.arr xs) => .ok xs.getLast?
  | some (.str s) => .ok ((s.data.getLast?).map (fun c => .str (String.mk [c])))
  | some (.num _) => .ok none
  | some (.bool _) => .ok none
  | some (.obj fields) => .ok (objIndexLast fields)

/-- JS `Object.keys`: throws a TypeError on `undefined` and on `null`;
yields the index keys of a string or an array; yields the empty list on a
number or boolean (primitives are boxed into key-less wrapper objects); and
yields an object's own keys.  We enumerate an object's keys in insertion
order (real JS enumerates integer-like keys first, in ascending order; no
claim depends on the order of keys). -/
def jsObjectKeys : JsVal → Except Unit (List String)
  | none => .error ()
  | some .null => .error ()
  | some (.num _) => .ok []
  | some (.bool _) => .ok []
  | some (.str s) => .ok ((List.range s.length).map toString)
  | some (.arr xs) => .ok ((List.range xs.length).map toString)
  | some (.obj fields) => .ok (fields.map Prod.fst)

/-- JS indexing `v[k]` with a string key `k`, as in
`responseData.files[x]`: objects look the key up; strings and arrays index
by the numeric value of the key; other primitives yield `undefined`.
(`null` cannot reach this point: `Object.keys` has already thrown on it.) -/
def jsIndexStr : Json → String → JsVal
  | .obj fields, k => jsLookup fields k
  | .str s, k => (k.toNat?.bind (fun i => s.data.get? i)).map (fun c => .str (String.mk [c]))
  | .arr xs, k => k.toNat?.bind (fun i => xs.get? i)
  | .num _, _ => none
  | .bool _, _ => none
  | .null, _ => none

/-- Evaluation of the image-collection loop (lines 116-120 of App.tsx):
`for (const x of Object.keys(responseData.files))` pushing
`'data:image/png;base64,' + responseData.files[x]` for each key.  Reading
`responseData.files` throws only on a `null` body; `Object.keys` throws
when the `files` key is absent (`undefined`) or bound to `null`. -/
def imagesOf (responseData : Json) : Except Unit (List String) :=
  match jsGetField responseData "files" with
  | .error _ => .error ()
  | .ok filesVal =>
    match jsObjectKeys filesVal with
    | .error _ => .error ()
    | .ok keys =>
      match filesVal with
      | some f => .ok (keys.map (fun k => "data:image/png;base64," ++ jsValToString (jsIndexStr f k)))
      | none => .error ()

/-- Sender tag of a message: the `sender: 'user' | 'agent'` field. -/
inductive Sender where
  | user : Sender
  | agent : Sender
deriving DecidableEq

/-- An attached file (interface `FileInfo` in App.tsx): name, blob bytes and
MIME type string. -/
structure FileInfo where
  name : String
  data : List Nat
  type : String
deriving DecidableEq

/-- A chat message (interface `Message` in App.tsx).  The optional fields
`files` and `images` are `none` when absent (`undefined`).  The `text`
field is declared `string` in TypeScript, but the transport assigns it an
arbitrary JS value through `any` (it is `undefined` when the server returns
an empty `messages` array), so its runtime type is `JsVal`. -/
structure Message where
  text : JsVal
  sender : Sender
  files : Option (List FileInfo)
  images : Option (List String)

/-- The module-level loading sentinel (line 17 of App.tsx):
`const LOADING_MESSAGE: Message = ( text: 'Loading...', sender: 'agent' )`. -/
def LOADING_MESSAGE : Message :=
  { text := some (.str "Loading..."), sender := .agent, files := none, images := none }

/-- The fixed user-visible error string (line 51 of App.tsx). -/
def ERROR_TEXT : String := "❌ Error: Failed to send message. Please try again."

/-- The synthetic agent message appended on a transport failure
(lines 50-53 of App.tsx). -/
def errorMessage : Message :=
  { text := some (.str ERROR_TEXT), sender := .agent, files := none, images := none }

/-- Processing of a parsed JSON response body (lines 108-122 of App.tsx):
build `receivedMessage` with the last element of `responseData.messages` as
text, empty `files`, and one data URI per key of `responseData.files`;
return the one-element list `[receivedMessage]`.  An `Except.error` models
a thrown TypeError, which the caller's catch converts to the error message. -/
def processResponse (responseData : Json) : Except Unit (List Message) := do
  let t ← lastMessage responseData
  let imgs ← imagesOf responseData
  .ok [{ text := t, sender := .agent, files := some [], images := some imgs }]

/-- Outcome of the `fetch` call as seen by `sendMessageToServer`: the
request may fail at the network level (the promise rejects); otherwise a
response arrives with an `ok` flag and a body that either parses to a JSON
value or fails to parse (`none`). -/
inductive FetchOutcome where
  | networkError : FetchOutcome
  | response : Bool → Option Json → FetchOutcome

/-- The transport (`sendMessageToServer`, lines 84-123 of App.tsx) after the
form data is built: a network failure rejects; a non-OK status throws
(`throw new Error(...)`, line 103); a JSON-parse failure rejects; otherwise
the body is processed by `processResponse`.  A single attempt is made: the
function performs exactly one fetch and never retries. -/
def sendMessageToServer : FetchOutcome → Except Unit (List Message)
  | .networkError => .error ()
  | .response false _ => .error ()
  | .response true none => .error ()
  | .response true (some body) => processResponse body

/-- One entry of the outgoing `FormData`: a text field or a blob field with
a filename. -/
inductive FormEntry where
  | text : String → FormEntry
  | blob : List Nat → String → FormEntry
deriving DecidableEq

/-- Construction of the multipart payload (lines 85-92 of App.tsx): the
`input` field carries `message.text` (string-coerced by `FormData.append`),
followed by one `files` field per attachment with its bytes and filename. -/
def buildFormData (message : Message) : List (String × FormEntry) :=
  ("input", FormEntry.text (jsValToString message.text)) ::
    (match message.files with
     | some fs => fs.map (fun f => ("files", FormEntry.blob f.data f.name))
     | none => [])

/-- Whitespace for the purpose of JS `String.prototype.trim` (the ECMAScript
WhiteSpace and LineTerminator code points that matter here). -/
def jsWhitespaceChar (c : Char) : Bool :=
  c == ' ' || c == '\t' || c == '\n' || c == '\r' ||
    c.toNat == 0x0b || c.toNat == 0x0c || c.toNat == 0xa0 ||
    c.toNat == 0xfeff || c.toNat == 0x2028 || c.toNat == 0x2029

/-- JS `String.prototype.trim`: strip leading and trailing whitespace. -/
def jsTrim (s : String) : String :=
  String.mk (((s.data.dropWhile jsWhitespaceChar).reverse.dropWhile jsWhitespaceChar).reverse)

/-- A message object as stored in the React `messages` state.  JavaScript
compares objects by reference (`msg !== LOADING_MESSAGE`, lines 43 and 49),
so each stored object carries an allocation identity `id`.  The module-level
constant `LOADING_MESSAGE` is one single object: every occurrence of it in
the list shares the reserved identity `loadingId`; every other message
object is freshly allocated and receives a fresh identity `≥ 1`. -/
structure StoredMsg where
  id : Nat
  val : Message

/-- The reserved identity of the one `LOADING_MESSAGE` object. -/
def loadingId : Nat := 0

/-- The React component state of `ChatInterface` (lines 20-25 of App.tsx),
plus two bookkeeping fields that are not program variables: `pending` counts
the `handleSend` invocations currently suspended at the `await` (it
determines which completion events exist), and `nextId` is the next fresh
object identity. -/
structure AppState where
  messages : List StoredMsg
  input : String
  isDragging : Bool
  files : List FileInfo
  isLoading : Bool
  pending : Nat
  nextId : Nat

/-- The initial component state: everything empty, no request in flight. -/
def initState : AppState :=
  { messages := [], input := "", isDragging := false, files := [],
    isLoading := false, pending := 0, nextId := 1 }

/-- A file as delivered by the DOM (`FileList` entries): name, contents and
MIME type. -/
structure DomFile where
  name : String
  bytes : List Nat
  type : String
deriving DecidableEq

/-- Conversion performed by `handleFiles` (lines 61-65 of App.tsx): each DOM
file becomes a `FileInfo` with a fresh Blob copy of its bytes. -/
def toFileInfo (file : DomFile) : FileInfo :=
  { name := file.name, data := file.bytes, type := file.type }

/-- JS `Array.prototype.filter` with the index argument of the callback, as
used by `prevFiles.filter((_, i) => i !== index)` (line 70 of App.tsx);
`start` is the index of the first element of the remaining list. -/
def filterWithIndex {α : Type} (p : Nat → α → Bool) (start : Nat) : List α → List α
  | [] => []
  | a :: as =>
    if p start a then a :: filterWithIndex p (start + 1) as
    else filterWithIndex p (start + 1) as

/-- The list transformation of `removeFile` (lines 69-71 of App.tsx):
keep every element whose index differs from `index`. -/
def removeFileList (files : List FileInfo) (index : Nat) : List FileInfo :=
  filterWithIndex (fun i _ => i != index) 0 files

/-- The user message snapshot built by `handleSend` (line 30 of App.tsx):
`( text: input, sender: 'user', files )` — the text is the un-trimmed input
and the files list is the current attachment list. -/
def userMessage (st : AppState) : Message :=
  { text := some (.str st.input), sender := .user, files := some st.files, images := none }

/-- The synchronous half of `handleSend` (lines 27-37 of App.tsx), up to the
`await`: return unchanged when the trimmed input is empty and no files are
attached (`!input.trim() && files.length === 0`); otherwise append the user
message snapshot, clear the input and the attachment list, set the busy
flag, and append the loading sentinel.  The user message is a fresh object
(identity `nextId`); the sentinel is the shared `LOADING_MESSAGE` object
(identity `loadingId`). -/
def handleSendStart (st : AppState) : AppState :=
  if jsTrim st.input = "" ∧ st.files = [] then st
  else
    { st with
      messages := st.messages ++ [⟨st.nextId, userMessage st⟩, ⟨loadingId, LOADING_MESSAGE⟩],
      input := "", files := [], isLoading := true,
      pending := st.pending + 1, nextId := st.nextId + 1 }

/-- The resumption of `handleSend` after the `await` (lines 41-57 of
App.tsx).  On success, every stored object reference-equal to
`LOADING_MESSAGE` is filtered out and the answers are appended (each a
fresh object from `sendMessageToServer`, hence fresh identities); on a
caught error, the same filter runs and one fresh error message is appended.
The `finally` clause clears the busy flag on both paths.  No exception
escapes: the function is total. -/
def handleSendComplete (st : AppState) (result : Except Unit (List Message)) : AppState :=
  match result with
  | .ok answers =>
    { st with
      messages := st.messages.filter (fun m => m.id != loadingId) ++
        answers.enum.map (fun p => ⟨st.nextId + p.1, p.2⟩),
      isLoading := false, pending := st.pending - 1, nextId := st.nextId + answers.length }
  | .error _ =>
    { st with
      messages := st.messages.filter (fun m => m.id != loadingId) ++ [⟨st.nextId, errorMessage⟩],
      isLoading := false, pending := st.pending - 1, nextId := st.nextId + 1 }

/-- The UI events of `ChatInterface`: text edits, file selection
(`handleFiles` via the hidden input), file removal, drag events, a drop
(`handleFileDrop`), the synchronous start of a send, and the completion of
an in-flight send with the transport's result. -/
inductive Event where
  | setInput : String → Event
  | addFiles : List DomFile → Event
  | removeFile : Nat → Event
  | dragOver : Event
  | dragLeave : Event
  | fileDrop : List DomFile → Event
  | sendStart : Event
  | sendComplete : Except Unit (List Message) → Event

/-- The step function: the effect of one UI event on the component state.
`fileDrop` (lines 73-77) clears the drag highlight and then behaves like
`handleFiles`; `dragOver` (lines 79-82) sets it. -/
def applyEvent : Event → AppState → AppState
  | .setInput s, st => { st with input := s }
  | .addFiles newFiles, st => { st with files := st.files ++ newFiles.map toFileInfo }
  | .removeFile i, st => { st with files := removeFileList st.files i }
  | .dragOver, st => { st with isDragging := true }
  | .dragLeave, st => { st with isDragging := false }
  | .fileDrop newFiles, st =>
    { st with isDragging := false, files := st.files ++ newFiles.map toFileInfo }
  | .sendStart, st => handleSendStart st
  | .sendComplete r, st => handleSendComplete st r

/-- Which events can fire in a state.  Every UI handler can fire at any
time — in particular `sendStart`: the send button is disabled while
`isLoading` (line 210), but the Enter-key handler (lines 202-204,
`e.key === 'Enter' && handleSend()`) is not disabled, so `handleSend` can
run while a send is in flight.  A completion event exists only for an
in-flight request. -/
def eventOk (st : AppState) : Event → Prop
  | .sendComplete _ => 0 < st.pending
  | _ => True

/-- The states reachable from the initial state by UI events. -/
inductive Reachable : AppState → Prop where
  | init : Reachable initState
  | step {st : AppState} (e : Event) : Reachable st → eventOk st e → Reachable (applyEvent e st)

/-- Event discipline under which `send()` is only invoked while the busy
flag is false — what the disabled send button enforces for clicks, and what
the spec's state machine assumes. -/
def disciplined (st : AppState) : Event → Prop
  | .sendStart => st.isLoading = false
  | .sendComplete _ => 0 < st.pending
  | _ => True

/-- The states reachable when every send is started with the busy flag
down. -/
inductive ReachableDisciplined : AppState → Prop where
  | init : ReachableDisciplined initState
  | step {st : AppState} (e : Event) :
      ReachableDisciplined st → disciplined st e → ReachableDisciplined (applyEvent e st)

/-- Number of occurrences of the loading sentinel object in the store. -/
def countLoading (msgs : List StoredMsg) : Nat :=
  msgs.countP (fun m => m.id == loadingId)

/-- Characterisation of a failed transport attempt: the fetch promise
rejects, the HTTP status is non-OK, or the body fails to parse as JSON. -/
def transportFailed : FetchOutcome → Prop
  | .networkError => True
  | .response ok body => ok = false ∨ body = none

/-- C4: for every Composer state whose text is empty or whitespace-only and
whose attachment list is empty, send() is a no-op: the whole component state
— Conversation Store, Composer state and busy flag included — is unchanged. -/
theorem sendStart_noop_on_empty (st : AppState)
    (htext : jsTrim st.input = "") (hfiles : st.files = []) :
    applyEvent .sendStart st = st := by
  simp [applyEvent, handleSendStart, htext, hfiles]

/-- Witness for C4 at a concrete whitespace-only, no-attachment state. -/
theorem sendStart_noop_on_empty_witness :
    applyEvent .sendStart { initState with input := "  " } = { initState with input := "  " } :=
  sendStart_noop_on_empty { initState with input := "  " } (by decide) rfl

/-- C5: for every Composer state with non-trivial text or at least one
attached file, the synchronous part of send() — everything before the
network call resolves — appends exactly one new user Message snapshotting
the current text and files (followed by the loading placeholder), clears
the Composer's text to empty and the attachment list to empty, and raises
the busy flag. -/
theorem sendStart_appends_user_snapshot (st : AppState)
    (h : ¬(jsTrim st.input = "" ∧ st.files = [])) :
    (applyEvent .sendStart st).messages =
        st.messages ++ [⟨st.nextId, userMessage st⟩, ⟨loadingId, LOADING_MESSAGE⟩] ∧
      userMessage st =
        { text := some (.str st.input), sender := .user, files := some st.files, images := none } ∧
      (applyEvent .sendStart st).input = "" ∧
      (applyEvent .sendStart st).files = [] ∧
      (applyEvent .sendStart st).isLoading = true := by
  simp [applyEvent, handleSendStart, h, userMessage]

/-- Witness for C5 at a concrete state with text "hi". -/
theorem sendStart_appends_user_snapshot_witness :
    (applyEvent .sendStart { initState with input := "hi" }).messages =
        [⟨1, userMessage { initState with input := "hi" }⟩, ⟨loadingId, LOADING_MESSAGE⟩] ∧
      userMessage { initState with input := "hi" } =
        { text := some (.str "hi"), sender := .user, files := some [], images := none } ∧
      (applyEvent .sendStart { initState with input := "hi" }).input = "" ∧
      (applyEvent .sendStart { initState with input := "hi" }).files = [] ∧
      (applyEvent .sendStart { initState with input := "hi" }).isLoading = true :=
  sendStart_appends_user_snapshot { initState with input := "hi" } (by decide)

/-- C8: addFiles appends the newly selected files to the end of the pending
attachment list in arrival order — the result is the concatenation of the
old list and the converted new files, with no deduplication by name — and a
drop event clears the drag-highlight flag and performs the same append in
drop order. -/
theorem addFiles_append_and_drop (st : AppState) (newFiles : List DomFile) :
    (applyEvent (.addFiles newFiles) st).files = st.files ++ newFiles.map toFileInfo ∧
      (applyEvent (.fileDrop newFiles) st).files = st.files ++ newFiles.map toFileInfo ∧
      (applyEvent (.fileDrop newFiles) st).isDragging = false :=
  ⟨rfl, rfl, rfl⟩

/-- C9: for a Composer state whose text is whitespace-only but whose
attachment list is non-empty, send() proceeds (it appends the user snapshot
and the placeholder), and both the stored user Message and the multipart
payload carry the original un-trimmed text verbatim: trimming is used only
in the emptiness check. -/
theorem send_whitespace_text_verbatim (st : AppState)
    (htext : jsTrim st.input = "") (hfiles : st.files ≠ []) :
    (applyEvent .sendStart st).messages =
        st.messages ++ [⟨st.nextId, userMessage st⟩, ⟨loadingId, LOADING_MESSAGE⟩] ∧
      (userMessage st).text = some (.str st.input) ∧
      buildFormData (userMessage st) =
        ("input", FormEntry.text st.input) ::
          st.files.map (fun f => ("files", FormEntry.blob f.data f.name)) := by
  refine ⟨?_, rfl, ?_⟩
  · simp [applyEvent, handleSendStart, hfiles]
  · simp [buildFormData, userMessage, jsValToString, jsToString]

/-- Witness for C9 at a concrete state with a single space as text and one
attached file. -/
theorem send_whitespace_text_verbatim_witness :
    (applyEvent .sendStart
          { initState with input := " ", files := [⟨"a.txt", [65], "text/plain"⟩] }).messages =
        [⟨1, userMessage { initState with input := " ", files := [⟨"a.txt", [65], "text/plain"⟩] }⟩,
          ⟨loadingId, LOADING_MESSAGE⟩] ∧
      (userMessage { initState with input := " ", files := [⟨"a.txt", [65], "text/plain"⟩] }).text =
        some (.str " ") ∧
      buildFormData
          (userMessage { initState with input := " ", files := [⟨"a.txt", [65], "text/plain"⟩] }) =
        [("input", FormEntry.text " "), ("files", FormEntry.blob [65] "a.txt")] :=
  send_whitespace_text_verbatim
    { initState with input := " ", files := [⟨"a.txt", [65], "text/plain"⟩] }
    (by decide) (by decide)

/-- C2: every transport failure — network failure, non-OK status or
JSON-parse failure — makes `sendMessageToServer` reject; the catch in
`handleSend` converts it into exactly one appended agent Message carrying
the fixed error string, no exception propagates (the step function is
total), and the busy flag is false afterwards.  Exactly one attempt is
consumed (`pending` drops by one); there is no retry. -/
theorem transportFailure_appends_error (st : AppState) (outcome : FetchOutcome)
    (hfail : transportFailed outcome) :
    sendMessageToServer outcome = .error () ∧
      (applyEvent (.sendComplete (sendMessageToServer outcome)) st).messages =
        st.messages.filter (fun m => m.id != loadingId) ++ [⟨st.nextId, errorMessage⟩] ∧
      errorMessage.text = some (.str ERROR_TEXT) ∧
      (applyEvent (.sendComplete (sendMessageToServer outcome)) st).isLoading = false ∧
      (applyEvent (.sendComplete (sendMessageToServer outcome)) st).pending = st.pending - 1 := by
  have herr : sendMessageToServer outcome = .error () := by
    match outcome with
    | .networkError => rfl
    | .response ok body =>
      rcases hfail with h | h
      · subst h; rfl
      · subst h; match ok with | true => rfl | false => rfl
  rw [herr]
  exact ⟨rfl, rfl, rfl, rfl, rfl⟩

/-- Witness for C2: a non-OK response against a one-message store. -/
theorem transportFailure_appends_error_witness :
    sendMessageToServer (.response false none) = .error () ∧
      (applyEvent (.sendComplete (sendMessageToServer (.response false none)))
            { initState with messages := [⟨loadingId, LOADING_MESSAGE⟩], pending := 1 }).messages =
        [⟨1, errorMessage⟩] ∧
      errorMessage.text = some (.str ERROR_TEXT) ∧
      (applyEvent (.sendComplete (sendMessageToServer (.response false none)))
            { initState with messages := [⟨loadingId, LOADING_MESSAGE⟩], pending := 1 }).isLoading =
        false ∧
      (applyEvent (.sendComplete (sendMessageToServer (.response false none)))
            { initState with messages := [⟨loadingId, LOADING_MESSAGE⟩], pending := 1 }).pending =
        0 :=
  transportFailure_appends_error
    { initState with messages := [⟨loadingId, LOADING_MESSAGE⟩], pending := 1 }
    (.response false none) (Or.inl rfl)

/-- C6: the removal performed on Transport completion filters out only
stored objects reference-identical to the sentinel (identity `loadingId`):
any message with a different identity — even one whose text is "Loading..."
and whose sender is agent — is still present afterwards, and the surviving
old messages keep their relative order (they form the filtered list, a
sublist of the old store, sitting in front of the newly appended
messages). -/
theorem removal_spares_lookalike (st : AppState) (r : Except Unit (List Message))
    (m : StoredMsg) (hid : m.id ≠ loadingId)
    (htext : m.val.text = some (.str "Loading..."))
    (hsender : m.val.sender = .agent)
    (hmem : m ∈ st.messages) :
    m ∈ (applyEvent (.sendComplete r) st).messages ∧
      (∃ rest, (applyEvent (.sendComplete r) st).messages =
        st.messages.filter (fun x => x.id != loadingId) ++ rest) ∧
      List.Sublist (st.messages.filter (fun x => x.id != loadingId)) st.messages := by
  have hfilter : m ∈ st.messages.filter (fun x => x.id != loadingId) := by
    rw [List.mem_filter]
    exact ⟨hmem, by simpa using hid⟩
  refine ⟨?_, ?_, List.filter_sublist _⟩
  · match r with
    | .ok answers => exact List.mem_append_left _ hfilter
    | .error _ => exact List.mem_append_left _ hfilter
  · match r with
    | .ok answers => exact ⟨_, rfl⟩
    | .error _ => exact ⟨_, rfl⟩

/-- Witness for C6: a store holding the sentinel and a lookalike with
identity 5; the lookalike survives an error completion. -/
theorem removal_spares_lookalike_witness :
    (⟨5, { text := some (.str "Loading..."), sender := .agent, files := none, images := none }⟩ :
        StoredMsg) ∈
      (applyEvent (.sendComplete (.error ()))
          { initState with
            messages :=
              [⟨loadingId, LOADING_MESSAGE⟩,
                ⟨5, { text := some (.str "Loading..."), sender := .agent, files := none,
                      images := none }⟩],
            pending := 1 }).messages :=
  (removal_spares_lookalike
      { initState with
        messages :=
          [⟨loadingId, LOADING_MESSAGE⟩,
            ⟨5, { text := some (.str "Loading..."), sender := .agent, files := none,
                  images := none }⟩],
        pending := 1 }
      (.error ())
      ⟨5, { text := some (.str "Loading..."), sender := .agent, files := none, images := none }⟩
      (by decide) rfl rfl (by simp)).1

/-- Keeping every index different from `index` keeps the whole list once the
running index has passed `index`. -/
theorem filterWithIndex_past {α : Type} (index : Nat) :
    ∀ (l : List α) (k : Nat), index < k →
      filterWithIndex (fun i _ => i != index) k l = l := by
  intro l
  induction l with
  | nil => intro k _; rfl
  | cons a as ih =>
    intro k hk
    have hne : (k != index) = true := by simp [Nat.ne_of_gt hk]
    simp only [filterWithIndex, hne, if_pos]
    exact congrArg (a :: ·) (ih (k + 1) (Nat.lt_succ_of_lt hk))

/-- General form of the `removeFile` computation with a running start
index: when the target lies within the remaining list it is dropped and the
rest is kept in order; otherwise nothing changes. -/
theorem filterWithIndex_ne_eq {α : Type} (index : Nat) :
    ∀ (l : List α) (k : Nat), k ≤ index →
      filterWithIndex (fun i _ => i != index) k l =
        if index - k < l.length then l.take (index - k) ++ l.drop (index - k + 1) else l := by
  intro l
  induction l with
  | nil => intro k _; simp [filterWithIndex]
  | cons a as ih =>
    intro k hk
    by_cases hke : k = index
    · subst hke
      have hz : k - k = 0 := Nat.sub_self k
      simp only [filterWithIndex, bne_self_eq_false, if_neg, Bool.false_eq_true,
        not_false_iff, hz, List.length_cons, Nat.succ_pos, if_pos, List.take_zero,
        List.drop_succ_cons, List.drop_zero, List.nil_append, ite_true]
      have := filterWithIndex_past (α := α) k as (k + 1) (Nat.lt_succ_self k)
      simpa using this
    · have hk1 : k + 1 ≤ index := Nat.lt_of_le_of_ne hk hke
      have hne : (k != index) = true := by simp [hke]
      have hsub : index - k = (index - (k + 1)) + 1 := by omega
      simp only [filterWithIndex, hne, if_pos]
      rw [ih (k + 1) hk1, hsub]
      by_cases hlen : index - (k + 1) < as.length
      · have : (index - (k + 1)) + 1 < (a :: as).length := by
          simp [List.length_cons]; omega
        simp [hlen, this]
      · have : ¬((index - (k + 1)) + 1 < (a :: as).length) := by
          simp [List.length_cons]; omega
        simp [hlen, this]

/-- Looking up each key of a string-valued mapping with pairwise distinct
keys returns that key's own value. -/
theorem lookup_encoded (f : List (String × String))
    (h : (f.map Prod.fst).Nodup) :
    (f.map Prod.fst).map
        (fun k => "data:image/png;base64," ++
          jsValToString (jsLookup (f.map (fun kv => (kv.1, Json.str kv.2))) k)) =
      f.map (fun kv => "data:image/png;base64," ++ kv.2) := by
  induction f with
  | nil => rfl
  | cons kv rest ih =>
    have h' : kv.1 ∉ rest.map Prod.fst ∧ (rest.map Prod.fst).Nodup := by
      simpa [List.nodup_cons] using h
    simp only [List.map_cons]
    congr 1
    · simp [jsLookup, List.find?, jsValToString, jsToString]
    · rw [← ih h'.2]
      apply List.map_congr_left
      intro k hk
      have hne : (kv.1 == k) = false := by
        simp only [beq_eq_false_iff_ne, ne_eq]
        intro he
        exact h'.1 (he ▸ hk)
      simp [jsLookup, List.find?, hne]

/-- C3: for every successful Transport response whose body carries a
non-empty string list under "messages" and a string-valued mapping with
distinct keys under "files", the Transport returns exactly one agent
Message; its text is the last element of the messages list, and its images
list has exactly one entry per key of the mapping, each equal to
"data:image/png;base64," concatenated with that key's base64 value (in the
mapping's own order). -/
theorem transport_success_shape (m : List String) (f : List (String × String))
    (hm : m ≠ []) (hkeys : (f.map Prod.fst).Nodup) :
    processResponse
        (.obj [("messages", .arr (m.map .str)),
          ("files", .obj (f.map (fun kv => (kv.1, .str kv.2))))]) =
      .ok [{ text := some (.str (m.getLast hm)), sender := .agent, files := some [],
             images := some (f.map (fun kv => "data:image/png;base64," ++ kv.2)) }] := by
  have hlast : (m.map Json.str).getLast? = some (.str (m.getLast hm)) := by
    rw [List.getLast?_map, List.getLast?_eq_getLast m hm]
    rfl
  have hmapmap :
      ((f.map (fun kv => (kv.1, Json.str kv.2))).map Prod.fst) = f.map Prod.fst := by
    simp [List.map_map]
  have h1 : lastMessage
      (.obj [("messages", .arr (m.map .str)),
        ("files", .obj (f.map (fun kv => (kv.1, .str kv.2))))]) =
      .ok ((m.map Json.str).getLast?) := rfl
  have h2 : imagesOf
      (.obj [("messages", .arr (m.map .str)),
        ("files", .obj (f.map (fun kv => (kv.1, .str kv.2))))]) =
      .ok (((f.map (fun kv => (kv.1, Json.str kv.2))).map Prod.fst).map
        (fun k => "data:image/png;base64," ++
          jsValToString (jsLookup (f.map (fun kv => (kv.1, Json.str kv.2))) k))) := rfl
  simp only [processResponse, h1, h2, hlast, hmapmap, lookup_encoded f hkeys]
  rfl

/-- Witness for C3 at the spec's own example: messages ["a", "b"] and one
file "x" with base64 value "QUJD". -/
theorem transport_success_shape_witness :
    processResponse
        (.obj [("messages", .arr [.str "a", .str "b"]),
          ("files", .obj [("x", .str "QUJD")])]) =
      .ok [{ text := some (.str "b"), sender := .agent, files := some [],
             images := some ["data:image/png;base64,QUJD"] }] := by
  have h := transport_success_shape ["a", "b"] [("x", "QUJD")] (by decide) (by decide)
  simpa using h

/-- Counterexample to C10 as stated: an OK body whose "files" value is the
number 42 — not an object — does NOT make the processing throw:
`Object.keys` on a number yields no keys, so the reply is an ordinary agent
Message with text "a" and no images, not the error path. -/
theorem files_number_does_not_throw :
    processResponse (.obj [("messages", .arr [.str "a"]), ("files", .num 42)]) =
      .ok [{ text := some (.str "a"), sender := .agent, files := some [],
             images := some [] }] := rfl

/-- C10 (amended): an OK body whose "files" key is absent (the read yields
`undefined`) or bound to JSON `null` makes the response processing throw
(`Object.keys` throws a TypeError on `undefined` and `null`), so send()
takes the failure path; whereas an OK body whose "messages" is an empty
array — and whose files processing succeeds — does not throw and yields one
agent Message whose text is `undefined`. -/
theorem files_missing_throws_and_empty_messages_undefined :
    (∀ body : Json,
        (jsGetField body "files" = .ok none ∨ jsGetField body "files" = .ok (some .null)) →
        processResponse body = .error ()) ∧
      (∀ (fields : List (String × Json)) (imgs : List String),
        jsLookup fields "messages" = some (.arr []) →
        imagesOf (.obj fields) = .ok imgs →
        processResponse (.obj fields) =
          .ok [{ text := none, sender := .agent, files := some [], images := some imgs }]) := by
  constructor
  · intro body h
    have himg : imagesOf body = .error () := by
      rcases h with h | h <;> simp [imagesOf, h, jsObjectKeys]
    rcases hlm : lastMessage body with e | t <;>
      simp only [processResponse, hlm, himg] <;> rfl
  · intro fields imgs hmsg himg
    have h1 : lastMessage (.obj fields) = .ok none := by
      simp only [lastMessage, jsGetField, hmsg]
      rfl
    simp only [processResponse, h1, himg]
    rfl

/-- Witness for C10 (amended): a body without a "files" key throws, and a
body with empty "messages" and an empty "files" object yields an agent
Message with undefined text. -/
theorem files_missing_throws_witness :
    processResponse (.obj [("messages", .arr [.str "a"])]) = .error () ∧
      processResponse (.obj [("messages", .arr []), ("files", .obj [])]) =
        .ok [{ text := none, sender := .agent, files := some [], images := some [] }] :=
  ⟨files_missing_throws_and_empty_messages_undefined.1
      (.obj [("messages", .arr [.str "a"])]) (Or.inl rfl),
    files_missing_throws_and_empty_messages_undefined.2
      [("messages", .arr []), ("files", .obj [])] [] rfl rfl⟩

/-- C7: removeFile(index) with an index at or beyond the attachment count
leaves the attachment list unchanged; with an in-range index it removes
exactly the element at that index and preserves the order of the rest. -/
theorem removeFile_spec (st : AppState) (index : Nat) :
    (applyEvent (.removeFile index) st).files =
      if index < st.files.length then st.files.take index ++ st.files.drop (index + 1)
      else st.files := by
  have h := filterWithIndex_ne_eq (α := FileInfo) index st.files 0 (Nat.zero_le index)
  simpa [applyEvent, removeFileList] using h

/-- Counting the sentinel distributes over append. -/
theorem countLoading_append (l1 l2 : List StoredMsg) :
    countLoading (l1 ++ l2) = countLoading l1 + countLoading l2 :=
  List.countP_append _ _ _

/-- The completion filter leaves no sentinel occurrence behind. -/
theorem countLoading_filter_zero (l : List StoredMsg) :
    countLoading (l.filter (fun m => m.id != loadingId)) = 0 := by
  rw [countLoading, List.countP_filter, List.countP_eq_zero]
  intro a _
  cases h : (a.id == loadingId) <;> simp [bne, h]

/-- Freshly appended answers carry positive identities, hence no sentinel. -/
theorem countLoading_fresh (answers : List Message) (n : Nat) (hn : 1 ≤ n) :
    countLoading (answers.enum.map (fun p => ⟨n + p.1, p.2⟩)) = 0 := by
  rw [countLoading, List.countP_eq_zero]
  intro a ha
  obtain ⟨p, _, rfl⟩ := List.mem_map.mp ha
  show ¬((n + p.1 == loadingId) = true)
  simp only [loadingId, beq_iff_eq]
  omega

/-- Counting the sentinel over the freshly appended user-message and
sentinel pair yields exactly one occurrence. -/
theorem countLoading_pair (n : Nat) (hn : 1 ≤ n) (u : Message) :
    countLoading [⟨n, u⟩, ⟨loadingId, LOADING_MESSAGE⟩] = 1 := by
  show List.countP _ _ = 1
  rw [List.countP_cons, List.countP_cons]
  have h1 : ((⟨n, u⟩ : StoredMsg).id == loadingId) = false := by
    show (n == loadingId) = false
    simp only [loadingId, beq_eq_false_iff_ne, ne_eq]
    omega
  have h2 : ((⟨loadingId, LOADING_MESSAGE⟩ : StoredMsg).id == loadingId) = true := by
    show (loadingId == loadingId) = true
    simp
  rw [h1, h2]
  rfl

/-- The inductive invariant of the send cycle under disciplined sends: the
number of sentinel occurrences in the store equals the number of in-flight
sends, at most one send is in flight, the busy flag is up exactly while one
is, and fresh identities stay positive. -/
def sendInvariant (st : AppState) : Prop :=
  countLoading st.messages = st.pending ∧ st.pending ≤ 1 ∧
    (st.isLoading = true ↔ st.pending = 1) ∧ 1 ≤ st.nextId

/-- Every disciplined event preserves the send-cycle invariant. -/
theorem sendInvariant_step (st : AppState) (e : Event)
    (hinv : sendInvariant st) (hok : disciplined st e) :
    sendInvariant (applyEvent e st) := by
  obtain ⟨hc, hp, hl, hn⟩ := hinv
  cases e with
  | setInput s => exact ⟨hc, hp, hl, hn⟩
  | addFiles fs => exact ⟨hc, hp, hl, hn⟩
  | removeFile i => exact ⟨hc, hp, hl, hn⟩
  | dragOver => exact ⟨hc, hp, hl, hn⟩
  | dragLeave => exact ⟨hc, hp, hl, hn⟩
  | fileDrop fs => exact ⟨hc, hp, hl, hn⟩
  | sendStart =>
    have hload : st.isLoading = false := hok
    have hp0 : st.pending = 0 := by
      rcases Nat.eq_or_lt_of_le hp with h1 | h1
      · rw [← h1] at hl
        rw [hl.mpr rfl] at hload
        cases hload
      · omega
    show sendInvariant (handleSendStart st)
    unfold handleSendStart
    by_cases hguard : jsTrim st.input = "" ∧ st.files = []
    · rw [if_pos hguard]
      exact ⟨hc, hp, hl, hn⟩
    · rw [if_neg hguard]
      refine ⟨?_, ?_, ?_, ?_⟩
      · show countLoading
            (st.messages ++ [⟨st.nextId, userMessage st⟩, ⟨loadingId, LOADING_MESSAGE⟩]) =
          st.pending + 1
        rw [countLoading_append, countLoading_pair st.nextId hn (userMessage st), hc]
      · show st.pending + 1 ≤ 1
        omega
      · show true = true ↔ st.pending + 1 = 1
        simp [hp0]
      · show 1 ≤ st.nextId + 1
        omega
  | sendComplete r =>
    have hp1 : st.pending = 1 := by
      have h01 : 0 < st.pending := hok
      omega
    cases r with
    | ok answers =>
      refine ⟨?_, ?_, ?_, ?_⟩
      · show countLoading
            (st.messages.filter (fun m => m.id != loadingId) ++
              answers.enum.map (fun p => ⟨st.nextId + p.1, p.2⟩)) =
          st.pending - 1
        rw [countLoading_append, countLoading_filter_zero,
          countLoading_fresh answers st.nextId hn, hp1]
      · show st.pending - 1 ≤ 1
        omega
      · show false = true ↔ st.pending - 1 = 1
        simp [hp1]
      · show 1 ≤ st.nextId + answers.length
        omega
    | error e =>
      refine ⟨?_, ?_, ?_, ?_⟩
      · show countLoading
            (st.messages.filter (fun m => m.id != loadingId) ++ [⟨st.nextId, errorMessage⟩]) =
          st.pending - 1
        rw [countLoading_append, countLoading_filter_zero, hp1]
        show 0 + List.countP _ _ = 0
        rw [List.countP_cons]
        have h1 : ((⟨st.nextId, errorMessage⟩ : StoredMsg).id == loadingId) = false := by
          show (st.nextId == loadingId) = false
          simp only [loadingId, beq_eq_false_iff_ne, ne_eq]
          omega
        rw [h1]
        rfl
      · show st.pending - 1 ≤ 1
        omega
      · show false = true ↔ st.pending - 1 = 1
        simp [hp1]
      · show 1 ≤ st.nextId + 1
        omega

/-- The send-cycle invariant holds in every disciplined reachable state. -/
theorem sendInvariant_reachable (st : AppState) (h : ReachableDisciplined st) :
    sendInvariant st := by
  induction h with
  | init => exact ⟨rfl, by decide, by decide, by decide⟩
  | step e hr hok ih => exact sendInvariant_step _ e ih hok

/-- C1 (amended): at every state reachable when send() is invoked only
while the busy flag is false — the discipline the disabled send button
enforces and the spec's state machine assumes — the Conversation Store
contains at most one loading placeholder.  (As stated over arbitrary
sequences of send() invocations the claim is false: see the two-placeholder
counterexample, reachable through the un-disabled Enter-key handler.) -/
theorem atMostOneLoading_disciplined (st : AppState) (h : ReachableDisciplined st) :
    countLoading st.messages ≤ 1 := by
  obtain ⟨hc, hp, _, _⟩ := sendInvariant_reachable st h
  omega

/-- Witness for C1 (amended): a disciplined trace that types "a" and starts
one send. -/
theorem atMostOneLoading_disciplined_witness :
    countLoading (applyEvent .sendStart (applyEvent (.setInput "a") initState)).messages ≤ 1 :=
  atMostOneLoading_disciplined _
    (.step .sendStart (.step (.setInput "a") .init True.intro) rfl)

/-- The concrete UI trace refuting C1 as stated: type "a", invoke send
(Enter), type "b", invoke send again while the first request is still in
flight.  The second invocation is reachable because `handleSend` never
checks `isLoading` and the Enter-key handler (lines 202-204 of App.tsx) is
not disabled while busy — only the send button is. -/
def doubleSendState : AppState :=
  applyEvent .sendStart (applyEvent (.setInput "b")
    (applyEvent .sendStart (applyEvent (.setInput "a") initState)))

/-- Counterexample to C1 as stated ("at every reachable state ... for every
sequence of send() invocations"): a reachable state whose store holds two
loading placeholders. -/
theorem twoLoadingPlaceholdersReachable :
    Reachable doubleSendState ∧ countLoading doubleSendState.messages = 2 := by
  constructor
  · exact .step .sendStart (.step (.setInput "b") (.step .sendStart
      (.step (.setInput "a") .init True.intro) True.intro) True.intro) True.intro
  · decide

end ChatApp
